import Mathlib

/-!
Shallow embedding of the `whisper-cpu` repository (Python) in Lean 4.

Embedded source files:
- `src/utils.py`: `format_timestamp_lrc`, `get_output_filename`, `is_audio_file`.
- `src/batch_process.py`: `BatchProcessor` (counters, `find_audio_files`,
  `process_file`, `process_directory`, `print_statistics`).
- `src/main.py`: the batch-mode branch of `main`.

Modelling conventions:
- Python float seconds are modelled as `ℚ`.  Every IEEE-754 double is a dyadic
  rational, for which Python's float `//`, `%` on the moderate ranges involved
  agree with the exact rational operations, and `printf`-style `%.2f`
  round-half-even rounding never meets a tie (a tie would need a denominator
  divisible by 5^3), so it agrees with round-half-up on ℚ; we use `round`.
- Paths are strings; POSIX separators.  `os.path.basename`, `os.path.splitext`
  and `pathlib.Path.suffix` / `with_suffix` are embedded per their CPython
  definitions on plain relative/absolute file paths.
- The external engine (`WhisperLRCGenerator`, not part of this repository) is
  an oracle `Env.transcribe` returning `true` on success and `false` when the
  engine raises; the filesystem is the oracle `Env.fsExists` / `Env.isDir` /
  `Env.listFiles`.
-/

namespace WhisperCpu

/-- ASCII lower-casing of one character, as Python `str.lower` acts on the
ASCII range (the only range that can affect membership in the ASCII-only
audio-extension allow-list). -/
def pyLowerChar (c : Char) : Char :=
  if 65 ≤ c.toNat ∧ c.toNat ≤ 90 then Char.ofNat (c.toNat + 32) else c

/-- Python `str.lower`, restricted to its ASCII action. -/
def pyLower (s : String) : String :=
  String.mk (s.data.map pyLowerChar)

/-- The fixed allow-list from `utils.is_audio_file` (`audio_extensions`). -/
def audio_extensions : List String :=
  [".mp3", ".mp4", ".wav", ".m4a", ".flac", ".aac", ".ogg",
   ".wma", ".opus", ".mp2", ".m4b", ".m4p", ".webm", ".mkv",
   ".avi", ".mov", ".wmv", ".flv", ".3gp"]

/-- `utils.is_audio_file`: `file_extension.lower() in audio_extensions`. -/
def is_audio_file (file_extension : String) : Bool :=
  audio_extensions.contains (pyLower file_extension)

/-- Characters of the final path component: everything after the last slash
(`os.path.basename` / `pathlib.Path.name` on plain file paths). -/
def nameChars (l : List Char) : List Char :=
  (l.reverse.takeWhile (fun c => c ≠ '/')).reverse

/-- Characters of the leading directory part (the complement of `nameChars`,
slash included). -/
def dirChars (l : List Char) : List Char :=
  (l.reverse.dropWhile (fun c => c ≠ '/')).reverse

/-- `os.path.basename` for POSIX paths. -/
def basename (p : String) : String :=
  String.mk (nameChars p.data)

/-- Root part of CPython `os.path.splitext` applied to a bare file name: the
name is cut at its last dot unless every character before that dot is itself a
dot (then no extension is split off). -/
def splitextRootChars (name : List Char) : List Char :=
  match name.reverse.span (fun c => c ≠ '.') with
  | (_, []) => name
  | (_, _ :: before) => if before.all (fun c => c = '.') then name else before.reverse

/-- `utils.get_output_filename`: `os.path.splitext(os.path.basename(p))[0] + ".lrc"`. -/
def get_output_filename (input_filename : String) : String :=
  String.mk (splitextRootChars (nameChars input_filename.data)) ++ ".lrc"

/-- `pathlib` suffix split of a bare file name: returns `(stem, suffix)` when
the name has a proper suffix (last dot strictly inside the name: not at index
0 and not the final character), `none` otherwise. -/
def nameSuffixSplit (name : List Char) : Option (List Char × List Char) :=
  match name.reverse.span (fun c => c ≠ '.') with
  | (_, []) => none
  | (ext, _ :: before) =>
      if before = [] ∨ ext = [] then none
      else some (before.reverse, '.' :: ext.reverse)

/-- `pathlib.Path.suffix` of a path, as a string (empty when there is none). -/
def pathSuffix (p : String) : String :=
  match nameSuffixSplit (nameChars p.data) with
  | some (_, suf) => String.mk suf
  | none => ""

/-- `pathlib.Path.with_suffix` on the final path component. -/
def withSuffixName (name : List Char) (newSuffix : List Char) : List Char :=
  match nameSuffixSplit name with
  | some (stem, _) => stem ++ newSuffix
  | none => name ++ newSuffix

/-- `pathlib.Path.with_suffix` on a plain POSIX path string: the directory part
is kept and the final component's suffix is replaced (or appended when there is
none). -/
def withSuffix (p : String) (newSuffix : String) : String :=
  String.mk (dirChars p.data ++ withSuffixName (nameChars p.data) newSuffix.data)

/-! ### Decimal rendering (`%02d` / `%05.2f` pieces) -/

/-- The ASCII digit character for `n ≤ 9`. -/
def digitChar (n : Nat) : Char := Char.ofNat (48 + n)

/-- Fueled worker for `natDigits`; `fuel` bounds the digit count, so the
recursion is structural. -/
def natDigitsAux : Nat → Nat → List Char
  | 0, _ => []
  | fuel + 1, n =>
      if n < 10 then [digitChar n]
      else natDigitsAux fuel (n / 10) ++ [digitChar (n % 10)]

/-- Decimal digits of a natural number, most significant first (`n + 1` units
of fuel always suffice). -/
def natDigits (n : Nat) : List Char := natDigitsAux (n + 1) n

/-- Zero-padding to width two, as Python `%02d` (wider numbers keep all their
digits). -/
def pad2 (n : Nat) : List Char :=
  if n < 10 then '0' :: [digitChar n] else natDigits n

/-- `utils.format_timestamp_lrc`, for non-negative seconds (the spec's input
domain).  `minutes = int(seconds // 60)`, `remaining_seconds = seconds % 60`;
the f-string `f"[{minutes:02d}:{remaining_seconds:05.2f}]"` renders the
remainder rounded to two decimals (`r2 / 100`), integer part zero-padded to
two characters, fraction always exactly two. -/
def format_timestamp_lrc (seconds : ℚ) : String :=
  let minutes : ℤ := ⌊seconds / 60⌋
  let remaining_seconds : ℚ := seconds - 60 * minutes
  let r2 : ℕ := (round (100 * remaining_seconds)).toNat
  String.mk ('[' :: pad2 minutes.toNat
    ++ ':' :: pad2 (r2 / 100) ++ '.' :: pad2 (r2 % 100) ++ [']'])

/-! ### Reading rendered timestamps back (for shape / round-trip claims) -/

/-- Decider for ASCII digit characters. -/
def isDigitChar (c : Char) : Bool := 48 ≤ c.toNat && c.toNat ≤ 57

/-- Numeric value of an ASCII digit character. -/
def digitVal (c : Char) : ℚ := ((c.toNat - 48 : ℕ) : ℚ)

/-- Shape check for a five-character `SS.ff` seconds field. -/
def ssffShape (l : List Char) : Bool :=
  match l with
  | [a, b, dot, c, d] =>
      isDigitChar a && isDigitChar b && (dot = '.') && isDigitChar c && isDigitChar d
  | _ => false

/-- Value of a five-character `SS.ff` seconds field. -/
def ssffValue (l : List Char) : ℚ :=
  match l with
  | [a, b, _, c, d] => 10 * digitVal a + digitVal b + (10 * digitVal c + digitVal d) / 100
  | _ => 0

/-- The `SS.ff` field of a rendered timestamp: the five characters before the
closing bracket. -/
def secondsFieldChars (t : String) : List Char :=
  ((t.data.reverse.drop 1).take 5).reverse

/-- Numeric value of the `SS.ff` field of a rendered timestamp. -/
def secondsFieldValue (t : String) : ℚ := ssffValue (secondsFieldChars t)

/-- Shape check for a whole `[MM:SS.ff]` timestamp (the regex
`^\[\d\x7b2\x7d:\d\x7b2\x7d\.\d\x7b2\x7d\]$`). -/
def lrcShape (t : String) : Bool :=
  match t.data with
  | ['[', a, b, colon, c, d, dot, e, f, ']'] =>
      isDigitChar a && isDigitChar b && (colon = ':') && isDigitChar c && isDigitChar d
        && (dot = '.') && isDigitChar e && isDigitChar f
  | _ => false

/-- Parse a `[MM:SS.ff]` timestamp back to seconds: `minutes*60 + seconds`. -/
def lrcParse (t : String) : ℚ :=
  match t.data with
  | ['[', a, b, _, c, d, _, e, f, ']'] =>
      (10 * digitVal a + digitVal b) * 60
        + 10 * digitVal c + digitVal d + (10 * digitVal e + digitVal f) / 100
  | _ => 0

/-! ### Batch processor (`src/batch_process.py`) and batch mode of
`src/main.py` -/

/-- The per-call options threaded through `process_directory` /
`process_file`. -/
structure Options where
  language : Option String
  beam_size : Nat
  vad_filter : Bool
  skip_existing : Bool
deriving DecidableEq

/-- The external world: filesystem oracles and the external transcription
engine (`WhisperLRCGenerator.transcribe_to_lrc`), which returns `true` on
success and `false` when it raises an exception. -/
structure Env where
  fsExists : String → Bool
  isDir : String → Bool
  listFiles : String → List String
  transcribe : String → String → Options → Bool

/-- The mutable counters set to zero in `BatchProcessor.__init__`. -/
structure BatchState where
  processed_count : Nat
  skipped_count : Nat
  error_count : Nat
deriving DecidableEq

/-- Counters of a freshly constructed `BatchProcessor`. -/
def initBatchState : BatchState := ⟨0, 0, 0⟩

/-- Sum of the three counters. -/
def BatchState.total (st : BatchState) : Nat :=
  st.processed_count + st.skipped_count + st.error_count

/-- `BatchProcessor.find_audio_files` applied to an enumerated candidate list
(`directory.glob(pattern)` yields `files`; directories are excluded by
`is_file`): keep the paths whose `suffix.lower()` passes `is_audio_file`, and
pair each with its sibling `.lrc` path (`file_path.with_suffix('.lrc')`). -/
def find_audio_files (files : List String) : List (String × String) :=
  (files.filter (fun p => is_audio_file (pyLower (pathSuffix p)))).map
    (fun p => (p, withSuffix p ".lrc"))

/-- `BatchProcessor.process_file`: skip check first (outside the `try`), then
the guarded engine call; returns the updated counters and the boolean the
method returns. -/
def process_file (env : Env) (st : BatchState) (audio_path lrc_path : String)
    (opts : Options) : BatchState × Bool :=
  if opts.skip_existing && env.fsExists lrc_path then
    ({ st with skipped_count := st.skipped_count + 1 }, false)
  else if env.transcribe audio_path lrc_path opts then
    ({ st with processed_count := st.processed_count + 1 }, true)
  else
    ({ st with error_count := st.error_count + 1 }, false)

/-- The per-task loop of `BatchProcessor.process_directory`. -/
def processTasks (env : Env) (opts : Options) (tasks : List (String × String))
    (st : BatchState) : BatchState :=
  tasks.foldl (fun s t => (process_file env s t.1 t.2 opts).1) st

/-- The record printed by `BatchProcessor.print_statistics` (elapsed time and
the average, which exist only on the console, are not modelled). -/
structure Summary where
  total_files : Nat
  processed : Nat
  skipped : Nat
  errors : Nat
deriving DecidableEq

/-- `BatchProcessor.print_statistics` as the summary it reports. -/
def print_statistics (total_files : Nat) (st : BatchState) : Summary :=
  ⟨total_files, st.processed_count, st.skipped_count, st.error_count⟩

/-- `BatchProcessor.process_directory` on an enumerated file list: discover
tasks, return early (no statistics printed) when none, otherwise run every
task and report the statistics with the current run's task count as total. -/
def process_directory (env : Env) (opts : Options) (files : List String)
    (st : BatchState) : BatchState × Option Summary :=
  let audio_files := find_audio_files files
  if audio_files.isEmpty then (st, none)
  else
    let st2 := processTasks env opts audio_files st
    (st2, some (print_statistics audio_files.length st2))

/-- The batch branch of `main` in `src/main.py`: reject a non-directory with
exit code 1, otherwise build a fresh `BatchProcessor` (counters zero), run
`process_directory` on the directory's enumerated files, and return 0 (the
walk itself completing is modelled by `listFiles` returning its list). -/
def mainBatch (env : Env) (opts : Options) (directory : String) : Nat :=
  if env.isDir directory then
    let _ := process_directory env opts (env.listFiles directory) initBatchState
    0
  else 1

/-! ### Concrete scenarios for the batch claims -/

/-- The defaults of `process_directory`: auto language, beam 5, no VAD, skip
existing outputs. -/
def defaultOpts : Options :=
  { language := none, beam_size := 5, vad_filter := false, skip_existing := true }

/-- A directory holding exactly three audio files. -/
def threeFiles : List String := ["/music/a.mp3", "/music/b.mp3", "/music/c.mp3"]

/-- World for the partial-failure scenario: no `.lrc` outputs exist yet, the
directory `/music` lists the three audio files, and the engine raises on
exactly the second file. -/
def envFailSecond : Env :=
  { fsExists := fun _ => false
    isDir := fun d => d == "/music"
    listFiles := fun _ => threeFiles
    transcribe := fun audio _ _ => audio != "/music/b.mp3" }

/-- World in which every destination path already exists. -/
def envAllExist : Env :=
  { fsExists := fun _ => true
    isDir := fun _ => true
    listFiles := fun _ => threeFiles
    transcribe := fun _ _ _ => true }

/-! ### Supporting lemmas -/

lemma digitChar_toNat (k : ℕ) (h : k ≤ 9) : (digitChar k).toNat = 48 + k := by
  interval_cases k <;> rfl

lemma digitVal_digitChar (k : ℕ) (h : k ≤ 9) : digitVal (digitChar k) = (k : ℚ) := by
  simp [digitVal, digitChar_toNat k h]

lemma isDigitChar_digitChar (k : ℕ) (h : k ≤ 9) : isDigitChar (digitChar k) = true := by
  simp only [isDigitChar, digitChar_toNat k h, Bool.and_eq_true, decide_eq_true_eq]
  omega

lemma pad2_two (n : ℕ) (h : n < 100) :
    pad2 n = [digitChar (n / 10), digitChar (n % 10)] := by
  unfold pad2
  split
  · rename_i h10
    have hd : n / 10 = 0 := Nat.div_eq_of_lt h10
    have hm : n % 10 = n := Nat.mod_eq_of_lt h10
    rw [hd, hm]
    rfl
  · rename_i h10
    unfold natDigits
    obtain ⟨m, rfl⟩ : ∃ m, n = m + 1 := ⟨n - 1, by omega⟩
    show natDigitsAux (m + 2) (m + 1) = _
    rw [show natDigitsAux (m + 2) (m + 1)
          = if m + 1 < 10 then [digitChar (m + 1)]
            else natDigitsAux (m + 1) ((m + 1) / 10) ++ [digitChar ((m + 1) % 10)] from rfl,
        if_neg h10]
    obtain ⟨j, hj⟩ : ∃ j, m = j + 1 := ⟨m - 1, by omega⟩
    subst hj
    rw [show natDigitsAux (j + 2) ((j + 2) / 10)
          = if (j + 2) / 10 < 10 then [digitChar ((j + 2) / 10)]
            else natDigitsAux (j + 1) ((j + 2) / 10 / 10)
                ++ [digitChar ((j + 2) / 10 % 10)] from rfl,
        if_pos (by omega)]
    rfl

/-- Evaluation helper: once floor and round are computed, the formatter's
output is the literal padded string. -/
lemma format_timestamp_lrc_eval (s : ℚ) (m k : ℕ)
    (h1 : ⌊s / 60⌋ = (m : ℤ)) (h2 : round (100 * (s - 60 * (m : ℚ))) = (k : ℤ)) :
    format_timestamp_lrc s
      = String.mk ('[' :: pad2 m ++ ':' :: pad2 (k / 100) ++ '.' :: pad2 (k % 100) ++ [']']) := by
  unfold format_timestamp_lrc
  rw [h1]
  simp only []
  rw [show (((m : ℤ) : ℚ)) = (m : ℚ) by push_cast; rfl, h2]
  simp

/-- Structural description of the formatter's output on non-negative input:
minutes are `⌊s/60⌋`, the seconds field is the remainder rounded to
hundredths, the remainder lies in `[0, 60)`, the rounded hundredths `k` in
`[0, 6000]`, and `k/100` is within `1/200` of the remainder. -/
lemma format_timestamp_lrc_data (s : ℚ) (h : 0 ≤ s) :
    ∃ m k : ℕ,
      (m : ℤ) = ⌊s / 60⌋
      ∧ (k : ℤ) = round (100 * (s - 60 * ((⌊s / 60⌋ : ℤ) : ℚ)))
      ∧ k ≤ 6000
      ∧ (format_timestamp_lrc s).data
          = '[' :: pad2 m ++ ':' :: pad2 (k / 100) ++ '.' :: pad2 (k % 100) ++ [']']
      ∧ 0 ≤ s - 60 * ((⌊s / 60⌋ : ℤ) : ℚ)
      ∧ s - 60 * ((⌊s / 60⌋ : ℤ) : ℚ) < 60
      ∧ |(k : ℚ) / 100 - (s - 60 * ((⌊s / 60⌋ : ℤ) : ℚ))| ≤ 1 / 200 := by
  have hfl : (0 : ℤ) ≤ ⌊s / 60⌋ := Int.floor_nonneg.mpr (by positivity)
  have hle : ((⌊s / 60⌋ : ℤ) : ℚ) ≤ s / 60 := Int.floor_le _
  have hlt : s / 60 < ((⌊s / 60⌋ : ℤ) : ℚ) + 1 := Int.lt_floor_add_one _
  have hrem0 : 0 ≤ s - 60 * ((⌊s / 60⌋ : ℤ) : ℚ) := by linarith
  have hrem60 : s - 60 * ((⌊s / 60⌋ : ℤ) : ℚ) < 60 := by linarith
  have hr0 : (0 : ℤ) ≤ round (100 * (s - 60 * ((⌊s / 60⌋ : ℤ) : ℚ))) := by
    rw [round_eq]
    exact Int.floor_nonneg.mpr (by linarith)
  have hr6000 : round (100 * (s - 60 * ((⌊s / 60⌋ : ℤ) : ℚ))) ≤ 6000 := by
    rw [round_eq]
    have h1 : (100 * (s - 60 * ((⌊s / 60⌋ : ℤ) : ℚ)) + 1 / 2 : ℚ) < ((6001 : ℤ) : ℚ) := by
      push_cast
      linarith
    have h2 := Int.floor_lt.mpr h1
    omega
  refine ⟨(⌊s / 60⌋).toNat, (round (100 * (s - 60 * ((⌊s / 60⌋ : ℤ) : ℚ)))).toNat,
    Int.toNat_of_nonneg hfl, Int.toNat_of_nonneg hr0, by omega, rfl, hrem0, hrem60, ?_⟩
  have habs := abs_sub_round (100 * (s - 60 * ((⌊s / 60⌋ : ℤ) : ℚ)))
  rw [abs_le] at habs ⊢
  have hcast : (((round (100 * (s - 60 * ((⌊s / 60⌋ : ℤ) : ℚ)))).toNat : ℚ)
      = ((round (100 * (s - 60 * ((⌊s / 60⌋ : ℤ) : ℚ))) : ℤ) : ℚ)) := by
    exact_mod_cast congrArg (fun z : ℤ => (z : ℚ)) (Int.toNat_of_nonneg hr0)
  rw [hcast]
  constructor <;> linarith [habs.1, habs.2]

/-- The last six characters of the rendered string determine the extracted
seconds field, whatever the minutes width. -/
lemma secondsFieldChars_eq (t : String) (l : List Char) (b1 b2 c1 c2 : Char)
    (h : t.data = l ++ [b1, b2, '.', c1, c2, ']']) :
    secondsFieldChars t = [b1, b2, '.', c1, c2] := by
  unfold secondsFieldChars
  rw [h, List.reverse_append]
  simp

/-- Shape and value of a seconds field built from two zero-padded two-digit
groups. -/
lemma ssff_of_pad2 (ip fr : ℕ) (h1 : ip < 100) (h2 : fr < 100) :
    ssffShape (pad2 ip ++ '.' :: pad2 fr) = true
    ∧ ssffValue (pad2 ip ++ '.' :: pad2 fr) = (ip : ℚ) + (fr : ℚ) / 100 := by
  rw [pad2_two ip h1, pad2_two fr h2]
  constructor
  · simp [ssffShape, isDigitChar_digitChar _ (by omega : ip / 10 ≤ 9),
      isDigitChar_digitChar _ (by omega : ip % 10 ≤ 9),
      isDigitChar_digitChar _ (by omega : fr / 10 ≤ 9),
      isDigitChar_digitChar _ (by omega : fr % 10 ≤ 9)]
  · simp only [List.cons_append, List.nil_append, ssffValue,
      digitVal_digitChar _ (by omega : ip / 10 ≤ 9),
      digitVal_digitChar _ (by omega : ip % 10 ≤ 9),
      digitVal_digitChar _ (by omega : fr / 10 ≤ 9),
      digitVal_digitChar _ (by omega : fr % 10 ≤ 9)]
    have e1 : (10 : ℚ) * ((ip / 10 : ℕ) : ℚ) + ((ip % 10 : ℕ) : ℚ) = (ip : ℚ) := by
      exact_mod_cast congrArg (fun n : ℕ => (n : ℚ)) (Nat.div_add_mod ip 10)
    have e2 : (10 : ℚ) * ((fr / 10 : ℕ) : ℚ) + ((fr % 10 : ℕ) : ℚ) = (fr : ℚ) := by
      exact_mod_cast congrArg (fun n : ℕ => (n : ℚ)) (Nat.div_add_mod fr 10)
    push_cast at e1 e2 ⊢
    linarith

/-! ### Claim theorems: timestamp formatter -/

/-- C5: `format_timestamp_lrc 0 = "[00:00.00]"`,
`format_timestamp_lrc 91.47 = "[01:31.47]"`, and
`format_timestamp_lrc 3661.0 = "[61:01.00]"` — for inputs of 3600 seconds or
more the minutes exceed 59 as a plain zero-padded decimal with no hour
wraparound. -/
theorem timestamp_examples :
    format_timestamp_lrc 0 = "[00:00.00]"
    ∧ format_timestamp_lrc (9147 / 100) = "[01:31.47]"
    ∧ format_timestamp_lrc 3661 = "[61:01.00]" := by
  refine ⟨?_, ?_, ?_⟩
  · rw [format_timestamp_lrc_eval 0 0 0 (by norm_num) (by norm_num [round_eq])]
    decide
  · rw [format_timestamp_lrc_eval (9147 / 100) 1 3147 (by norm_num) (by norm_num [round_eq])]
    decide
  · rw [format_timestamp_lrc_eval 3661 61 100 (by norm_num) (by norm_num [round_eq])]
    decide

/-- C4 counterexample: at input 59.999 the formatter renders `[00:60.00]`,
whose `SS.ff` field has value 60, outside the claimed range `[00.00, 59.99]`. -/
theorem seconds_field_can_render_sixty :
    format_timestamp_lrc (59999 / 1000) = "[00:60.00]"
    ∧ secondsFieldValue (format_timestamp_lrc (59999 / 1000)) = 60
    ∧ ¬ secondsFieldValue (format_timestamp_lrc (59999 / 1000)) ≤ 5999 / 100 := by
  have hfmt : format_timestamp_lrc (59999 / 1000) = "[00:60.00]" := by
    rw [format_timestamp_lrc_eval (59999 / 1000) 0 6000 (by norm_num) (by norm_num [round_eq])]
    decide
  have hc : secondsFieldChars "[00:60.00]" = ['6', '0', '.', '0', '0'] := by decide
  have hval : secondsFieldValue ("[00:60.00]" : String) = 60 := by
    rw [secondsFieldValue, hc]
    norm_num [ssffValue, digitVal, show Char.toNat '6' = 54 from rfl,
      show Char.toNat '0' = 48 from rfl]
  refine ⟨hfmt, by rw [hfmt]; exact hval, by rw [hfmt, hval]; norm_num⟩

/-- C4 (amended): for every non-negative input, the `SS.ff` field is rendered
as a two-digit zero-padded integer part with two fractional digits; the
pre-rounding remainder `s - 60⌊s/60⌋` always lies in `[0, 60)`, and the
rendered field equals that remainder rounded to hundredths, lying in
`[00.00, 60.00]` — it can reach 60.00 (rounding up), so the bound 59.99 of the
original claim holds only before rounding. -/
theorem seconds_field_amended (s : ℚ) (h : 0 ≤ s) :
    0 ≤ s - 60 * ((⌊s / 60⌋ : ℤ) : ℚ)
    ∧ s - 60 * ((⌊s / 60⌋ : ℤ) : ℚ) < 60
    ∧ ssffShape (secondsFieldChars (format_timestamp_lrc s)) = true
    ∧ 0 ≤ secondsFieldValue (format_timestamp_lrc s)
    ∧ secondsFieldValue (format_timestamp_lrc s) ≤ 60
    ∧ |secondsFieldValue (format_timestamp_lrc s) - (s - 60 * ((⌊s / 60⌋ : ℤ) : ℚ))|
        ≤ 1 / 200 := by
  obtain ⟨m, k, hm, hk, hk6000, hdata, hrem0, hrem60, habs⟩ := format_timestamp_lrc_data s h
  have hip : k / 100 < 100 := by omega
  have hfr : k % 100 < 100 := by omega
  have hdata2 : (format_timestamp_lrc s).data
      = ('[' :: pad2 m ++ [':'])
        ++ [digitChar (k / 100 / 10), digitChar (k / 100 % 10), '.',
            digitChar (k % 100 / 10), digitChar (k % 100 % 10), ']'] := by
    rw [hdata, pad2_two _ hip, pad2_two _ hfr]
    simp
  have hsec := secondsFieldChars_eq _ _ _ _ _ _ hdata2
  have hpair := ssff_of_pad2 (k / 100) (k % 100) hip hfr
  rw [pad2_two _ hip, pad2_two _ hfr] at hpair
  have hlist : pad2 (k / 100) ++ '.' :: pad2 (k % 100)
      = [digitChar (k / 100 / 10), digitChar (k / 100 % 10), '.',
         digitChar (k % 100 / 10), digitChar (k % 100 % 10)] := by
    rw [pad2_two _ hip, pad2_two _ hfr]
    simp
  have hval : secondsFieldValue (format_timestamp_lrc s)
      = ((k / 100 : ℕ) : ℚ) + ((k % 100 : ℕ) : ℚ) / 100 := by
    rw [secondsFieldValue, hsec]
    rw [pad2_two _ hip, pad2_two _ hfr] at hlist
    simpa using hpair.2
  have ekq : (100 : ℚ) * ((k / 100 : ℕ) : ℚ) + ((k % 100 : ℕ) : ℚ) = (k : ℚ) := by
    exact_mod_cast congrArg (fun n : ℕ => (n : ℚ)) (Nat.div_add_mod k 100)
  have hvk : secondsFieldValue (format_timestamp_lrc s) = (k : ℚ) / 100 := by
    rw [hval]
    linarith
  have hk60 : (k : ℚ) ≤ 6000 := by exact_mod_cast hk6000
  refine ⟨hrem0, hrem60, ?_, ?_, ?_, ?_⟩
  · rw [hsec]
    simpa using hpair.1
  · rw [hvk]
    positivity
  · rw [hvk]
    linarith
  · rw [hvk]
    exact habs

/-- C6: for all seconds `s ∈ [0, 3599.99]`, the rendered timestamp matches
`^\[\d\x7b2\x7d:\d\x7b2\x7d\.\d\x7b2\x7d\]$` and parsing it back as
`minutes*60 + seconds` recovers `s` within 0.01. -/
theorem timestamp_round_trip (s : ℚ) (h0 : 0 ≤ s) (h1 : s ≤ 359999 / 100) :
    lrcShape (format_timestamp_lrc s) = true
    ∧ |lrcParse (format_timestamp_lrc s) - s| ≤ 1 / 100 := by
  obtain ⟨m, k, hm, hk, hk6000, hdata, hrem0, hrem60, habs⟩ := format_timestamp_lrc_data s h0
  have hm59 : m < 100 := by
    have h60 : ⌊s / 60⌋ < (60 : ℤ) := by
      apply Int.floor_lt.mpr
      push_cast
      linarith
    omega
  have hip : k / 100 < 100 := by omega
  have hfr : k % 100 < 100 := by omega
  have hdata2 : (format_timestamp_lrc s).data
      = ['[', digitChar (m / 10), digitChar (m % 10), ':',
         digitChar (k / 100 / 10), digitChar (k / 100 % 10), '.',
         digitChar (k % 100 / 10), digitChar (k % 100 % 10), ']'] := by
    rw [hdata, pad2_two _ hm59, pad2_two _ hip, pad2_two _ hfr]
    simp
  constructor
  · simp only [lrcShape, hdata2]
    simp [isDigitChar_digitChar _ (by omega : m / 10 ≤ 9),
      isDigitChar_digitChar _ (by omega : m % 10 ≤ 9),
      isDigitChar_digitChar _ (by omega : k / 100 / 10 ≤ 9),
      isDigitChar_digitChar _ (by omega : k / 100 % 10 ≤ 9),
      isDigitChar_digitChar _ (by omega : k % 100 / 10 ≤ 9),
      isDigitChar_digitChar _ (by omega : k % 100 % 10 ≤ 9)]
  · have hparse : lrcParse (format_timestamp_lrc s)
        = (10 * ((m / 10 : ℕ) : ℚ) + ((m % 10 : ℕ) : ℚ)) * 60
          + 10 * ((k / 100 / 10 : ℕ) : ℚ) + ((k / 100 % 10 : ℕ) : ℚ)
          + (10 * ((k % 100 / 10 : ℕ) : ℚ) + ((k % 100 % 10 : ℕ) : ℚ)) / 100 := by
      simp only [lrcParse, hdata2, digitVal_digitChar _ (by omega : m / 10 ≤ 9),
        digitVal_digitChar _ (by omega : m % 10 ≤ 9),
        digitVal_digitChar _ (by omega : k / 100 / 10 ≤ 9),
        digitVal_digitChar _ (by omega : k / 100 % 10 ≤ 9),
        digitVal_digitChar _ (by omega : k % 100 / 10 ≤ 9),
        digitVal_digitChar _ (by omega : k % 100 % 10 ≤ 9)]
    have em : (10 : ℚ) * ((m / 10 : ℕ) : ℚ) + ((m % 10 : ℕ) : ℚ) = (m : ℚ) := by
      exact_mod_cast congrArg (fun n : ℕ => (n : ℚ)) (Nat.div_add_mod m 10)
    have eip : (10 : ℚ) * ((k / 100 / 10 : ℕ) : ℚ) + ((k / 100 % 10 : ℕ) : ℚ)
        = ((k / 100 : ℕ) : ℚ) := by
      exact_mod_cast congrArg (fun n : ℕ => (n : ℚ)) (Nat.div_add_mod (k / 100) 10)
    have efr : (10 : ℚ) * ((k % 100 / 10 : ℕ) : ℚ) + ((k % 100 % 10 : ℕ) : ℚ)
        = ((k % 100 : ℕ) : ℚ) := by
      exact_mod_cast congrArg (fun n : ℕ => (n : ℚ)) (Nat.div_add_mod (k % 100) 10)
    have ekq : (100 : ℚ) * ((k / 100 : ℕ) : ℚ) + ((k % 100 : ℕ) : ℚ) = (k : ℚ) := by
      exact_mod_cast congrArg (fun n : ℕ => (n : ℚ)) (Nat.div_add_mod k 100)
    have hmq : ((⌊s / 60⌋ : ℤ) : ℚ) = (m : ℚ) := by
      rw [← hm]
      push_cast
      rfl
    rw [abs_le] at habs ⊢
    rw [hparse]
    rw [hmq] at habs
    constructor <;> linarith [habs.1, habs.2]

/-- C6 witness at `s = 91.47`. -/
theorem timestamp_round_trip_witness :
    lrcShape (format_timestamp_lrc (9147 / 100)) = true
    ∧ |lrcParse (format_timestamp_lrc (9147 / 100)) - 9147 / 100| ≤ 1 / 100 :=
  timestamp_round_trip (9147 / 100) (by norm_num) (by norm_num)

/-- C4 witness at `s = 59.999`. -/
theorem seconds_field_amended_witness :
    0 ≤ (59999 / 1000 : ℚ) - 60 * ((⌊(59999 / 1000 : ℚ) / 60⌋ : ℤ) : ℚ)
    ∧ (59999 / 1000 : ℚ) - 60 * ((⌊(59999 / 1000 : ℚ) / 60⌋ : ℤ) : ℚ) < 60
    ∧ ssffShape (secondsFieldChars (format_timestamp_lrc (59999 / 1000))) = true
    ∧ 0 ≤ secondsFieldValue (format_timestamp_lrc (59999 / 1000))
    ∧ secondsFieldValue (format_timestamp_lrc (59999 / 1000)) ≤ 60
    ∧ |secondsFieldValue (format_timestamp_lrc (59999 / 1000))
        - ((59999 / 1000 : ℚ) - 60 * ((⌊(59999 / 1000 : ℚ) / 60⌋ : ℤ) : ℚ))| ≤ 1 / 200 :=
  seconds_field_amended (59999 / 1000) (by norm_num)

/-! ### Claim theorems: audio classifier -/

lemma toNat_ofNat_of_lt (n : ℕ) (h : n < 55296) : (Char.ofNat n).toNat = n := by
  have hv : n.isValidChar := Or.inl h
  simp [Char.ofNat, hv]
  rfl

lemma pyLowerChar_idem (c : Char) : pyLowerChar (pyLowerChar c) = pyLowerChar c := by
  by_cases h : 65 ≤ c.toNat ∧ c.toNat ≤ 90
  · simp only [pyLowerChar, if_pos h]
    rw [if_neg]
    rw [toNat_ofNat_of_lt (c.toNat + 32) (by omega)]
    omega
  · simp only [pyLowerChar, if_neg h]

lemma pyLower_idem (s : String) : pyLower (pyLower s) = pyLower s := by
  simp [pyLower, Function.comp_def, pyLowerChar_idem]

/-- C7: `is_audio_file` returns true iff the lower-cased extension belongs to
the fixed 19-element allow-list; `.MP3` is accepted, `.txt` rejected, and the
classifier is insensitive to case (lower-casing the argument never changes the
verdict). -/
theorem audio_classifier_allowlist :
    (∀ ext : String, is_audio_file ext = true ↔
      pyLower ext ∈ ([".mp3", ".mp4", ".wav", ".m4a", ".flac", ".aac", ".ogg",
        ".wma", ".opus", ".mp2", ".m4b", ".m4p", ".webm", ".mkv",
        ".avi", ".mov", ".wmv", ".flv", ".3gp"] : List String))
    ∧ is_audio_file ".MP3" = true
    ∧ is_audio_file ".txt" = false
    ∧ (∀ ext : String, is_audio_file (pyLower ext) = is_audio_file ext) := by
  refine ⟨fun ext => ?_, by decide, by decide, fun ext => ?_⟩
  · simp [is_audio_file, audio_extensions, List.elem_iff]
  · simp [is_audio_file, pyLower_idem]

/-! ### Claim theorems: output path derivation -/

lemma data_ext {a b : String} (h : a.data = b.data) : a = b := by
  cases a
  cases b
  simp only [String.data] at h
  rw [h]

lemma mem_nameChars (l : List Char) (c : Char) (h : c ∈ nameChars l) : c ≠ '/' := by
  unfold nameChars at h
  rw [List.mem_reverse] at h
  simpa using List.mem_takeWhile_imp h

lemma nameChars_no_slash (l : List Char) (h : ∀ c ∈ l, c ≠ '/') : nameChars l = l := by
  unfold nameChars
  have ht : l.reverse.takeWhile (fun c => c ≠ '/') = l.reverse := by
    rw [List.takeWhile_eq_self_iff]
    intro x hx
    simp [h x (List.mem_reverse.mp hx)]
  rw [ht, List.reverse_reverse]

lemma dirChars_no_slash (l : List Char) (h : ∀ c ∈ l, c ≠ '/') : dirChars l = [] := by
  unfold dirChars
  have hd : l.reverse.dropWhile (fun c => c ≠ '/') = [] := by
    rw [List.dropWhile_eq_nil_iff]
    intro x hx
    simp [h x (List.mem_reverse.mp hx)]
  rw [hd, List.reverse_nil]

lemma nameChars_append_slash (d b : List Char) (hb : ∀ c ∈ b, c ≠ '/') :
    nameChars (d ++ '/' :: b) = b := by
  unfold nameChars
  rw [List.reverse_append, List.reverse_cons, List.append_assoc]
  rw [List.takeWhile_append_of_pos (by intro a ha; simp [hb a (List.mem_reverse.mp ha)])]
  simp

lemma dirChars_append_slash (d b : List Char) (hb : ∀ c ∈ b, c ≠ '/') :
    dirChars (d ++ '/' :: b) = d ++ ['/'] := by
  unfold dirChars
  rw [List.reverse_append, List.reverse_cons, List.append_assoc]
  rw [List.dropWhile_append_of_pos (by intro a ha; simp [hb a (List.mem_reverse.mp ha)])]
  simp

lemma mem_splitextRootChars (name : List Char) (c : Char)
    (h : c ∈ splitextRootChars name) : c ∈ name := by
  cases hd : name.reverse.dropWhile (fun c => c ≠ '.') with
  | nil =>
      simp only [splitextRootChars, List.span_eq_take_drop, hd] at h
      exact h
  | cons x before =>
      simp only [splitextRootChars, List.span_eq_take_drop, hd] at h
      by_cases hall : before.all (fun c => c = '.') = true
      · rw [if_pos hall] at h
        exact h
      · rw [if_neg hall] at h
        have h1 : c ∈ x :: before := List.mem_cons_of_mem x (List.mem_reverse.mp h)
        rw [← hd] at h1
        exact List.mem_reverse.mp ((List.dropWhile_sublist _).mem h1)

/-- C3 counterexample: the cited helper `get_output_filename` drops the
directory: on `"/a/b/song.mp3"` it yields `"song.lrc"`, not
`"/a/b/song.lrc"`. -/
theorem resolve_output_drops_directory :
    get_output_filename "/a/b/song.mp3" = "song.lrc"
    ∧ get_output_filename "/a/b/song.mp3" ≠ "/a/b/song.lrc" := by
  constructor
  · decide
  · decide

/-- C3 (amended): `get_output_filename` keeps only the base name — its result
never contains a path separator — replacing only the final extension
(`"v1.2.mp3" ↦ "v1.2.lrc"`); the batch pipeline's derivation
(`Path.with_suffix('.lrc')` in `find_audio_files`) does keep the directory
while replacing only the final extension, both on the claim's examples and in
general. -/
theorem output_path_derivation_amended :
    (∀ p : String, ∀ c ∈ (get_output_filename p).data, c ≠ '/')
    ∧ get_output_filename "/a/b/song.mp3" = "song.lrc"
    ∧ get_output_filename "v1.2.mp3" = "v1.2.lrc"
    ∧ withSuffix "/a/b/song.mp3" ".lrc" = "/a/b/song.lrc"
    ∧ withSuffix "/a/b/v1.2.mp3" ".lrc" = "/a/b/v1.2.lrc"
    ∧ (∀ d name : String, (∀ c ∈ name.data, c ≠ '/') →
        withSuffix (d ++ "/" ++ name) ".lrc" = (d ++ "/") ++ withSuffix name ".lrc") := by
  refine ⟨?_, by decide, by decide, by decide, by decide, ?_⟩
  · intro p c hc
    have hdata : (get_output_filename p).data
        = splitextRootChars (nameChars p.data) ++ ".lrc".data := by
      simp [get_output_filename]
    rw [hdata] at hc
    rcases List.mem_append.mp hc with h1 | h2
    · exact mem_nameChars p.data c (mem_splitextRootChars _ c h1)
    · rw [show (".lrc" : String).data = ['.', 'l', 'r', 'c'] from rfl] at h2
      simp only [List.mem_cons, List.not_mem_nil, or_false] at h2
      rcases h2 with rfl | rfl | rfl | rfl <;> decide
  · intro d name h
    apply data_ext
    have hdata : (d ++ "/" ++ name).data = d.data ++ '/' :: name.data := by
      simp
    simp only [withSuffix, hdata]
    rw [nameChars_append_slash d.data name.data h, dirChars_append_slash d.data name.data h,
      nameChars_no_slash name.data h, dirChars_no_slash name.data h]
    simp

/-- C3 witness: the general directory-keeping clause applied at
`d = "/a/b"`, `name = "song.mp3"`. -/
theorem output_path_derivation_amended_witness :
    withSuffix ("/a/b" ++ "/" ++ "song.mp3") ".lrc"
      = ("/a/b" ++ "/") ++ withSuffix "song.mp3" ".lrc" :=
  output_path_derivation_amended.2.2.2.2.2 "/a/b" "song.mp3" (by decide)

/-! ### Claim theorems: batch processor -/

lemma process_file_cases (env : Env) (st : BatchState) (a l : String) (o : Options) :
    (process_file env st a l o).1 = { st with skipped_count := st.skipped_count + 1 }
    ∨ (process_file env st a l o).1 = { st with processed_count := st.processed_count + 1 }
    ∨ (process_file env st a l o).1 = { st with error_count := st.error_count + 1 } := by
  unfold process_file
  split
  · left
    rfl
  · split
    · right
      left
      rfl
    · right
      right
      rfl

lemma process_file_total (env : Env) (st : BatchState) (a l : String) (o : Options) :
    ((process_file env st a l o).1).total = st.total + 1 := by
  rcases process_file_cases env st a l o with h | h | h <;>
    · rw [h]
      simp [BatchState.total]
      omega

lemma processTasks_cons (env : Env) (o : Options) (t : String × String)
    (rest : List (String × String)) (st : BatchState) :
    processTasks env o (t :: rest) st
      = processTasks env o rest (process_file env st t.1 t.2 o).1 := rfl

lemma processTasks_total (env : Env) (o : Options) (ts : List (String × String))
    (st : BatchState) :
    (processTasks env o ts st).total = st.total + ts.length := by
  induction ts generalizing st with
  | nil => rfl
  | cons t rest ih =>
      rw [processTasks_cons, ih, process_file_total]
      simp
      omega

lemma process_directory_eq (env : Env) (opts : Options) (files : List String)
    (st : BatchState) :
    process_directory env opts files st
      = if (find_audio_files files).isEmpty
        then (st, none)
        else (processTasks env opts (find_audio_files files) st,
          some (print_statistics (find_audio_files files).length
            (processTasks env opts (find_audio_files files) st))) := rfl

lemma process_directory_total (env : Env) (opts : Options) (files : List String)
    (st : BatchState) :
    ((process_directory env opts files st).1).total
      = st.total + (find_audio_files files).length := by
  rw [process_directory_eq]
  split
  · rename_i h
    rw [List.isEmpty_iff] at h
    simp [h]
  · exact processTasks_total env opts (find_audio_files files) st

/-- C2: from a freshly constructed processor, every discovered task increments
exactly one of the three counters exactly once, and after `process_directory`
the counters sum to the number of discovered tasks. -/
theorem run_statistics_invariant (env : Env) (opts : Options) (files : List String) :
    (∀ (st : BatchState) (audio lrc : String),
        (process_file env st audio lrc opts).1
            = { st with skipped_count := st.skipped_count + 1 }
        ∨ (process_file env st audio lrc opts).1
            = { st with processed_count := st.processed_count + 1 }
        ∨ (process_file env st audio lrc opts).1
            = { st with error_count := st.error_count + 1 })
    ∧ ((process_directory env opts files initBatchState).1).total
        = (find_audio_files files).length := by
  refine ⟨fun st audio lrc => process_file_cases env st audio lrc opts, ?_⟩
  rw [process_directory_total]
  simp [initBatchState, BatchState.total]

/-- C1: an engine failure inside the per-file step only increments
`error_count` and the loop continues with the remaining tasks; on a directory
of three audio files where the engine fails on exactly the second, the run
ends with `processed_count = 2`, `error_count = 1`, `skipped_count = 0`,
summing to the three discovered tasks. -/
theorem partial_failure_isolation :
    (∀ (env : Env) (opts : Options) (st : BatchState) (audio lrc : String)
        (rest : List (String × String)),
        (opts.skip_existing && env.fsExists lrc) = false →
        env.transcribe audio lrc opts = false →
        processTasks env opts ((audio, lrc) :: rest) st
          = processTasks env opts rest { st with error_count := st.error_count + 1 })
    ∧ (process_directory envFailSecond defaultOpts threeFiles initBatchState).1
        = { processed_count := 2, skipped_count := 0, error_count := 1 }
    ∧ 2 + 0 + 1 = (find_audio_files threeFiles).length := by
  refine ⟨?_, by decide, by decide⟩
  intro env opts st audio lrc rest h1 h2
  rw [processTasks_cons]
  congr 1
  show (process_file env st audio lrc opts).1 = _
  unfold process_file
  rw [if_neg (by simp [h1]), if_neg (by simp [h2])]

/-- C1 witness: the failure clause applied to the failing second task of the
concrete scenario. -/
theorem partial_failure_isolation_witness :
    processTasks envFailSecond defaultOpts
        [("/music/b.mp3", "/music/b.lrc")] initBatchState
      = processTasks envFailSecond defaultOpts []
          { initBatchState with error_count := initBatchState.error_count + 1 } :=
  partial_failure_isolation.1 envFailSecond defaultOpts initBatchState
    "/music/b.mp3" "/music/b.lrc" [] (by decide) (by decide)

/-- C8: with `skip_existing` true and the destination existing, the task is
counted as skipped (the other counters unchanged) and the transcription
adapter is never consulted — the outcome is the same under any `transcribe`
oracle. -/
theorem skip_policy (env : Env) (opts : Options) (st : BatchState) (audio lrc : String)
    (hskip : opts.skip_existing = true) (hex : env.fsExists lrc = true) :
    process_file env st audio lrc opts
        = ({ st with skipped_count := st.skipped_count + 1 }, false)
    ∧ ∀ t : String → String → Options → Bool,
        process_file { env with transcribe := t } st audio lrc opts
          = process_file env st audio lrc opts := by
  have hcond : (opts.skip_existing && env.fsExists lrc) = true := by
    rw [hskip, hex]
    rfl
  constructor
  · unfold process_file
    rw [if_pos hcond]
  · intro t
    unfold process_file
    rw [if_pos (show ((opts.skip_existing &&
        (Env.fsExists { env with transcribe := t } lrc)) = true) from hcond),
      if_pos hcond]

/-- C8 witness: a world where every destination exists, at the first scenario
task. -/
theorem skip_policy_witness :
    process_file envAllExist initBatchState "/music/a.mp3" "/music/a.lrc" defaultOpts
      = (⟨0, 1, 0⟩, false) :=
  (skip_policy envAllExist defaultOpts initBatchState "/music/a.mp3" "/music/a.lrc"
    rfl rfl).1

/-- C9: once the directory check passes, batch mode returns exit code 0
whatever the per-file outcomes — the environment (hence the pattern of engine
failures) is arbitrary. -/
theorem batch_mode_exit_code (env : Env) (opts : Options) (directory : String)
    (h : env.isDir directory = true) :
    mainBatch env opts directory = 0 := by
  unfold mainBatch
  rw [if_pos h]

/-- C9 witness: the scenario whose engine fails on one of the three files
still exits with 0. -/
theorem batch_mode_exit_code_witness :
    mainBatch envFailSecond defaultOpts "/music" = 0 :=
  batch_mode_exit_code envFailSecond defaultOpts "/music" (by decide)

/-- C10 (implicit claim): counters persist across `process_directory` calls on
the same instance — after a second run the counters sum to the tasks of both
runs, while the printed summary's total counts only the second run's
discovered files. -/
theorem counters_cumulative (env : Env) (opts : Options) (files1 files2 : List String) :
    ((process_directory env opts files2
        (process_directory env opts files1 initBatchState).1).1).total
      = (find_audio_files files1).length + (find_audio_files files2).length
    ∧ ((find_audio_files files2).isEmpty = false →
        (process_directory env opts files2
            (process_directory env opts files1 initBatchState).1).2
          = some (print_statistics (find_audio_files files2).length
              (process_directory env opts files2
                (process_directory env opts files1 initBatchState).1).1)) := by
  constructor
  · rw [process_directory_total, process_directory_total]
    simp [initBatchState, BatchState.total]
  · intro h
    rw [process_directory_eq env opts files2]
    simp [h]

/-- C10 witness: running the failing three-file scenario twice accumulates to
six counted outcomes while the second summary's total is three. -/
theorem counters_cumulative_witness :
    ((process_directory envFailSecond defaultOpts threeFiles
        (process_directory envFailSecond defaultOpts threeFiles initBatchState).1).1).total
      = (find_audio_files threeFiles).length + (find_audio_files threeFiles).length
    ∧ (process_directory envFailSecond defaultOpts threeFiles
        (process_directory envFailSecond defaultOpts threeFiles initBatchState).1).2
      = some (print_statistics (find_audio_files threeFiles).length
          (process_directory envFailSecond defaultOpts threeFiles
            (process_directory envFailSecond defaultOpts threeFiles initBatchState).1).1) :=
  ⟨(counters_cumulative envFailSecond defaultOpts threeFiles threeFiles).1,
    (counters_cumulative envFailSecond defaultOpts threeFiles threeFiles).2 (by decide)⟩

end WhisperCpu
